import Mathlib

/-!
Verification of the swap-simulation engine of the cfmms-rs UniswapV3 pool
module (src/pool/uniswap_v3.rs).

Shallow embedding conventions:
* `U256` values are `Nat` (kept below `2 ^ 256`; explicit `% 2 ^ 256` where the
  source wraps), `I256`/`i128`/`i32` values are `Int` in two's-complement range.
* Plain Rust arithmetic on fixed-width integers (`-`, `+`, unary `-`) is
  modelled with Rust's overflow-check semantics: an overflowing operation is a
  panic, embedded as `Except.error CFMMError.arithmeticPanic`.  The source's
  explicit `overflowing_sub` / `overflowing_add` calls are modelled as
  two's-complement wrapping, exactly as Rust defines them.
* The external `uniswap_v3_math` crate (a separate library, outside this
  repository) is a parameter: a `UniswapV3Math` structure of the three
  functions the swap loop calls.
* The external ledger data provider
  (`get_uniswap_v3_tick_data_batch_request`, repository code outside src/) is
  modelled from the spec as a fixed finite stream of tick data in traversal
  order, pinned to the first batch's block: each fetch removes the next
  `num_ticks` entries from the stream.
* The unbounded `while` loop is embedded with explicit fuel; running out of
  fuel is the distinguished result `none` (surfaced as
  `CFMMError.fuelExhausted` by the entry points) and is proved unreachable for
  the fuel the entry points pass.
-/

set_option maxRecDepth 40000

/-- Two's-complement wrap of a `Nat` into a `U256` (Rust `overflowing_add` on U256). -/
def u256wrap (x : Nat) : Nat := x % 2 ^ 256

/-- Two's-complement wrap of an `Int` into the `I256` range (Rust `overflowing_sub` on I256). -/
def i256wrap (x : Int) : Int := (x + 2 ^ 255) % 2 ^ 256 - 2 ^ 255

/-- Rust `I256::from_raw`: reinterpret a `U256` bit pattern as a signed 256-bit value. -/
def i256fromRaw (u : Nat) : Int := if u < 2 ^ 255 then (u : Int) else (u : Int) - 2 ^ 256

/-- Rust `I256::into_raw`: the `U256` bit pattern of a signed 256-bit value. -/
def i256toRaw (x : Int) : Nat := (x % 2 ^ 256).toNat

/-- Two's-complement wrap of an `Int` into the `i32` range (Rust `i32::wrapping_sub`). -/
def i32wrap (x : Int) : Int := (x + 2 ^ 31) % 2 ^ 32 - 2 ^ 31

/-- Errors of the simulation (the variants of the source's `CFMMError` the
embedded code can produce, plus `arithmeticPanic` for a Rust integer-overflow
panic and `fuelExhausted` for the embedding's fuel). -/
inductive CFMMError where
  | noInitializedTicks
  | outOfBoundsTick
  | outOfBoundsPrice
  | arithmeticPanic
  | fuelExhausted
  deriving DecidableEq, Repr

instance {ε α : Type} [DecidableEq ε] [DecidableEq α] : DecidableEq (Except ε α) := fun a b =>
  match a, b with
  | .ok x, .ok y =>
    if h : x = y then .isTrue (by rw [h]) else .isFalse (by intro he; injection he; contradiction)
  | .error x, .error y =>
    if h : x = y then .isTrue (by rw [h]) else .isFalse (by intro he; injection he; contradiction)
  | .ok _, .error _ => .isFalse (by intro he; injection he)
  | .error _, .ok _ => .isFalse (by intro he; injection he)

/-- Rust `u128` subtraction `a - b` (panics on underflow under overflow checks). -/
def u128checkedSub (a b : Nat) : Except CFMMError Nat :=
  if b ≤ a then .ok (a - b) else .error .arithmeticPanic

/-- Rust `u128` addition `a + b` (panics on overflow under overflow checks). -/
def u128checkedAdd (a b : Nat) : Except CFMMError Nat :=
  if a + b < 2 ^ 128 then .ok (a + b) else .error .arithmeticPanic

/-- Rust `i128` negation (panics at `i128::MIN` under overflow checks). -/
def i128checkedNeg (x : Int) : Except CFMMError Int :=
  if x = -(2 ^ 127) then .error .arithmeticPanic else .ok (-x)

/-- Rust `I256` subtraction (panics on overflow under overflow checks). -/
def i256checkedSub (a b : Int) : Except CFMMError Int :=
  if -(2 ^ 255) ≤ a - b ∧ a - b < 2 ^ 255 then .ok (a - b) else .error .arithmeticPanic

/-- Rust `I256` negation (panics at `I256::MIN` under overflow checks). -/
def i256checkedNeg (x : Int) : Except CFMMError Int :=
  if x = -(2 ^ 255) then .error .arithmeticPanic else .ok (-x)

/-- The pool state struct `UniswapV3Pool` (H160 addresses are embedded as `Nat`). -/
structure UniswapV3Pool where
  address : Nat
  token_a : Nat
  token_a_decimals : Nat
  token_b : Nat
  token_b_decimals : Nat
  liquidity : Nat
  sqrt_price : Nat
  fee : Nat
  tick : Int
  tick_spacing : Int
  liquidity_net : Int
  deriving DecidableEq, Repr

/-- Modelled from the spec: one entry of the tick-data batches returned by the
external provider `get_uniswap_v3_tick_data_batch_request` (repository code
outside src/).  The swap loop reads exactly these three fields of an entry:
its tick index, its initialized flag and its net liquidity delta. -/
structure TickData where
  tick : Int
  initialized : Bool
  liquidity_net : Int
  deriving DecidableEq, Repr

/-- The source's `CurrentState` struct: the mutable simulated state of the pool. -/
structure CurrentState where
  amount_specified_remaining : Int
  amount_calculated : Int
  sqrt_price_x_96 : Nat
  tick : Int
  liquidity : Nat
  deriving DecidableEq, Repr

/-- The interface of the external `uniswap_v3_math` crate used by the swap loop
(spec section 4.1); the engine is verified for an arbitrary implementation. -/
structure UniswapV3Math where
  get_sqrt_ratio_at_tick : Int → Except CFMMError Nat
  get_tick_at_sqrt_ratio : Nat → Except CFMMError Int
  compute_swap_step :
    Nat → Nat → Nat → Int → Nat → Except CFMMError (Nat × Nat × Nat × Nat)

def MIN_SQRT_RATIO : Nat := 4295128739

def MAX_SQRT_RATIO : Nat :=
  6743328256752651558 + 17280870778742802505 * 2 ^ 64 + 4294805859 * 2 ^ 128

def MIN_TICK : Int := -887272

def MAX_TICK : Int := 887272

/-- Rust `step.tick_next.clamp(MIN_TICK, MAX_TICK)`. -/
def clampTick (t : Int) : Int := max MIN_TICK (min t MAX_TICK)

/-- The `swap_target_sqrt_ratio` computation of the swap loop. -/
def swapTarget (zero_for_one : Bool) (sqrt_price_next limit : Nat) : Nat :=
  if zero_for_one then
    if sqrt_price_next < limit then limit else sqrt_price_next
  else
    if sqrt_price_next > limit then limit else sqrt_price_next

/-- The `sqrt_price_limit_x_96` computation of both entry points. -/
def sqrtPriceLimit (zero_for_one : Bool) : Nat :=
  if zero_for_one then MIN_SQRT_RATIO + 1 else MAX_SQRT_RATIO - 1

/-- The initial `CurrentState` both entry points build from the pool snapshot. -/
def initialState (pool : UniswapV3Pool) (amount_in : Nat) : CurrentState :=
  { amount_specified_remaining := i256fromRaw amount_in
    amount_calculated := 0
    sqrt_price_x_96 := pool.sqrt_price
    tick := pool.tick
    liquidity := pool.liquidity }

/-- One iteration of the `while` loop of `simulate_swap_with_cache`, after the
next tick datum `td` has been pulled from the cache (source lines 606-711). -/
def processTick (math : UniswapV3Math) (fee : Nat) (zero_for_one : Bool) (limit : Nat)
    (st : CurrentState) (td : TickData) : Except CFMMError CurrentState :=
  let sqrt_price_start := st.sqrt_price_x_96
  let tick_next := clampTick td.tick
  match math.get_sqrt_ratio_at_tick tick_next with
  | .error e => .error e
  | .ok sqrt_price_next =>
    match math.compute_swap_step st.sqrt_price_x_96 (swapTarget zero_for_one sqrt_price_next limit)
        st.liquidity st.amount_specified_remaining fee with
    | .error e => .error e
    | .ok (sqrt_price', amount_in, amount_out, fee_amount) =>
      let remaining' :=
        i256wrap (st.amount_specified_remaining - i256fromRaw (u256wrap (amount_in + fee_amount)))
      match i256checkedSub st.amount_calculated (i256fromRaw amount_out) with
      | .error e => .error e
      | .ok amount_calculated' =>
        if sqrt_price' = sqrt_price_next then
          match
            (if td.initialized then
              match (if zero_for_one then i128checkedNeg td.liquidity_net
                     else .ok td.liquidity_net : Except CFMMError Int) with
              | .error e => .error e
              | .ok net =>
                if net < 0 then
                  match i128checkedNeg net with
                  | .error e => .error e
                  | .ok mag => u128checkedSub st.liquidity mag.toNat
                else u128checkedAdd st.liquidity net.toNat
            else .ok st.liquidity : Except CFMMError Nat) with
          | .error e => .error e
          | .ok liquidity' =>
            .ok { amount_specified_remaining := remaining'
                  amount_calculated := amount_calculated'
                  sqrt_price_x_96 := sqrt_price'
                  tick := if zero_for_one then i32wrap (tick_next - 1) else tick_next
                  liquidity := liquidity' }
        else if sqrt_price' ≠ sqrt_price_start then
          match math.get_tick_at_sqrt_ratio sqrt_price' with
          | .error e => .error e
          | .ok t =>
            .ok { st with amount_specified_remaining := remaining'
                          amount_calculated := amount_calculated'
                          sqrt_price_x_96 := sqrt_price', tick := t }
        else
          .ok { st with amount_specified_remaining := remaining'
                        amount_calculated := amount_calculated'
                        sqrt_price_x_96 := sqrt_price' }

/-- One iteration of the `while` loop of `simulate_swap_mut_with_cache`
(source lines 443-548).  Identical to `processTick` except that the outer
`liquidity_net` variable (`lnet`) is threaded through and overwritten with the
direction-adjusted net of a crossed initialized tick. -/
def processTickMut (math : UniswapV3Math) (fee : Nat) (zero_for_one : Bool) (limit : Nat)
    (lnet : Int) (st : CurrentState) (td : TickData) : Except CFMMError (CurrentState × Int) :=
  let sqrt_price_start := st.sqrt_price_x_96
  let tick_next := clampTick td.tick
  match math.get_sqrt_ratio_at_tick tick_next with
  | .error e => .error e
  | .ok sqrt_price_next =>
    match math.compute_swap_step st.sqrt_price_x_96 (swapTarget zero_for_one sqrt_price_next limit)
        st.liquidity st.amount_specified_remaining fee with
    | .error e => .error e
    | .ok (sqrt_price', amount_in, amount_out, fee_amount) =>
      let remaining' :=
        i256wrap (st.amount_specified_remaining - i256fromRaw (u256wrap (amount_in + fee_amount)))
      match i256checkedSub st.amount_calculated (i256fromRaw amount_out) with
      | .error e => .error e
      | .ok amount_calculated' =>
        if sqrt_price' = sqrt_price_next then
          match
            (if td.initialized then
              match (if zero_for_one then i128checkedNeg td.liquidity_net
                     else .ok td.liquidity_net : Except CFMMError Int) with
              | .error e => .error e
              | .ok net =>
                if net < 0 then
                  match i128checkedNeg net with
                  | .error e => .error e
                  | .ok mag =>
                    match u128checkedSub st.liquidity mag.toNat with
                    | .error e => .error e
                    | .ok l => .ok (l, net)
                else
                  match u128checkedAdd st.liquidity net.toNat with
                  | .error e => .error e
                  | .ok l => .ok (l, net)
            else .ok (st.liquidity, lnet) : Except CFMMError (Nat × Int)) with
          | .error e => .error e
          | .ok (liquidity', lnet') =>
            .ok ({ amount_specified_remaining := remaining'
                   amount_calculated := amount_calculated'
                   sqrt_price_x_96 := sqrt_price'
                   tick := if zero_for_one then i32wrap (tick_next - 1) else tick_next
                   liquidity := liquidity' }, lnet')
        else if sqrt_price' ≠ sqrt_price_start then
          match math.get_tick_at_sqrt_ratio sqrt_price' with
          | .error e => .error e
          | .ok t =>
            .ok ({ st with amount_specified_remaining := remaining'
                           amount_calculated := amount_calculated'
                           sqrt_price_x_96 := sqrt_price', tick := t }, lnet)
        else
          .ok ({ st with amount_specified_remaining := remaining'
                         amount_calculated := amount_calculated'
                         sqrt_price_x_96 := sqrt_price' }, lnet)

/-- The `while` loop of `simulate_swap_with_cache` (source lines 603-712).
`iter` is the live tick-data iterator, `master` the not-yet-fetched remainder
of the provider's stream; an exhausted iterator triggers a refill of up to
`num_ticks` entries, and an empty refill is `NoInitializedTicks`. -/
def swapLoop (math : UniswapV3Math) (fee : Nat) (zero_for_one : Bool) (limit : Nat)
    (num_ticks : Nat) :
    Nat → CurrentState → List TickData → List TickData →
      Option (Except CFMMError CurrentState)
  | 0, _, _, _ => none
  | fuel + 1, st, iter, master =>
    if st.amount_specified_remaining ≠ 0 ∧ st.sqrt_price_x_96 ≠ limit then
      match iter with
      | td :: rest =>
        match processTick math fee zero_for_one limit st td with
        | .error e => some (.error e)
        | .ok st' => swapLoop math fee zero_for_one limit num_ticks fuel st' rest master
      | [] =>
        match master.take num_ticks with
        | [] => some (.error .noInitializedTicks)
        | td :: rest =>
          match processTick math fee zero_for_one limit st td with
          | .error e => some (.error e)
          | .ok st' =>
            swapLoop math fee zero_for_one limit num_ticks fuel st' rest (master.drop num_ticks)
    else some (.ok st)

/-- The `while` loop of `simulate_swap_mut_with_cache` (source lines 440-549),
additionally threading the outer `liquidity_net` variable. -/
def swapLoopMut (math : UniswapV3Math) (fee : Nat) (zero_for_one : Bool) (limit : Nat)
    (num_ticks : Nat) :
    Nat → CurrentState → Int → List TickData → List TickData →
      Option (Except CFMMError (CurrentState × Int))
  | 0, _, _, _, _ => none
  | fuel + 1, st, lnet, iter, master =>
    if st.amount_specified_remaining ≠ 0 ∧ st.sqrt_price_x_96 ≠ limit then
      match iter with
      | td :: rest =>
        match processTickMut math fee zero_for_one limit lnet st td with
        | .error e => some (.error e)
        | .ok (st', lnet') =>
          swapLoopMut math fee zero_for_one limit num_ticks fuel st' lnet' rest master
      | [] =>
        match master.take num_ticks with
        | [] => some (.error .noInitializedTicks)
        | td :: rest =>
          match processTickMut math fee zero_for_one limit lnet st td with
          | .error e => some (.error e)
          | .ok (st', lnet') =>
            swapLoopMut math fee zero_for_one limit num_ticks fuel st' lnet' rest
              (master.drop num_ticks)
    else some (.ok (st, lnet))

/-- `UniswapV3Pool::simulate_swap_with_cache` (source lines 560-715): read-only
swap simulation.  `provider` is the external provider's tick-data stream. -/
def simulate_swap_with_cache (pool : UniswapV3Pool) (token_in : Nat) (amount_in : Nat)
    (num_ticks : Nat) (math : UniswapV3Math) (provider : List TickData) :
    Except CFMMError Nat :=
  if amount_in = 0 then .ok 0
  else
    let zero_for_one : Bool := token_in == pool.token_a
    let tick_data := provider.take num_ticks
    let master := provider.drop num_ticks
    let limit := sqrtPriceLimit zero_for_one
    match swapLoop math pool.fee zero_for_one limit num_ticks (provider.length + 1)
        (initialState pool amount_in) tick_data master with
    | none => .error .fuelExhausted
    | some (.error e) => .error e
    | some (.ok st) =>
      match i256checkedNeg st.amount_calculated with
      | .error e => .error e
      | .ok v => .ok (i256toRaw v)

/-- `UniswapV3Pool::simulate_swap_mut_with_cache` (source lines 395-558):
mutating swap simulation; on success also returns the updated pool, with the
final working liquidity, sqrt price, tick and liquidity-net committed. -/
def simulate_swap_mut_with_cache (pool : UniswapV3Pool) (token_in : Nat) (amount_in : Nat)
    (num_ticks : Nat) (math : UniswapV3Math) (provider : List TickData) :
    Except CFMMError (Nat × UniswapV3Pool) :=
  if amount_in = 0 then .ok (0, pool)
  else
    let zero_for_one : Bool := token_in == pool.token_a
    let tick_data := provider.take num_ticks
    let master := provider.drop num_ticks
    let limit := sqrtPriceLimit zero_for_one
    match swapLoopMut math pool.fee zero_for_one limit num_ticks (provider.length + 1)
        (initialState pool amount_in) pool.liquidity_net tick_data master with
    | none => .error .fuelExhausted
    | some (.error e) => .error e
    | some (.ok (st, lnet)) =>
      match i256checkedNeg st.amount_calculated with
      | .error e => .error e
      | .ok v =>
        .ok (i256toRaw v,
          { pool with liquidity := st.liquidity, sqrt_price := st.sqrt_price_x_96,
                      tick := st.tick, liquidity_net := lnet })

/-- `UniswapV3Pool::simulate_swap` (source lines 717-725): read-only simulation
with the default window size of 150. -/
def simulate_swap (pool : UniswapV3Pool) (token_in : Nat) (amount_in : Nat)
    (math : UniswapV3Math) (provider : List TickData) : Except CFMMError Nat :=
  simulate_swap_with_cache pool token_in amount_in 150 math provider

/-- `UniswapV3Pool::simulate_swap_mut` (source lines 762-770): mutating
simulation with the default window size of 150. -/
def simulate_swap_mut (pool : UniswapV3Pool) (token_in : Nat) (amount_in : Nat)
    (math : UniswapV3Math) (provider : List TickData) :
    Except CFMMError (Nat × UniswapV3Pool) :=
  simulate_swap_mut_with_cache pool token_in amount_in 150 math provider

/-- `UniswapV3Pool::calculate_compressed` (source lines 750-756).  Rust `/` and
`%` on `i32` truncate toward zero, embedded as `Int.tdiv` / `Int.tmod`; the
function's domain is `tick_spacing ≠ 0` (Rust division by zero panics). -/
def calculate_compressed (pool : UniswapV3Pool) (tick : Int) : Int :=
  if tick < 0 ∧ tick.tmod pool.tick_spacing ≠ 0 then
    tick.tdiv pool.tick_spacing - 1
  else
    tick.tdiv pool.tick_spacing

/-- Rust `U256::as_u128` (panics when the value does not fit). -/
def u256asU128 (v : Nat) : Option Nat := if v < 2 ^ 128 then some v else none

/-- Rust `U256::as_u32` (panics when the value does not fit). -/
def u256asU32 (v : Nat) : Option Nat := if v < 2 ^ 32 then some v else none

/-- Rust `u32 as i32` (two's-complement reinterpretation). -/
def u32asI32 (w : Nat) : Int := if w < 2 ^ 31 then (w : Int) else (w : Int) - 2 ^ 32

/-- `UniswapV3Pool::decode_swap_log` (source lines 262-282).  `log_data` is the
list of 256-bit words produced by ABI-decoding the log data against the layout
commented in the source: index 0 = amount0, 1 = amount1, 2 = sqrtPriceX96,
3 = liquidity, 4 = tick.  NOTE: the source reads `log_data[1]` for BOTH
`amount_0` and `amount_1` (lines 275-276); this embedding reproduces that. -/
def decode_swap_log (log_data : List Nat) : Option (Int × Int × Nat × Nat × Int) :=
  let amount_0 := i256fromRaw (log_data.getD 1 0)
  let amount_1 := i256fromRaw (log_data.getD 1 0)
  let sqrt_price := log_data.getD 2 0
  match u256asU128 (log_data.getD 3 0) with
  | none => none
  | some liquidity =>
    match u256asU32 (log_data.getD 4 0) with
    | none => none
    | some w => some (amount_0, amount_1, sqrt_price, liquidity, u32asI32 w)

theorem processTickMut_map_fst (math : UniswapV3Math) (fee : Nat) (z : Bool) (limit : Nat)
    (lnet : Int) (st : CurrentState) (td : TickData) :
    (processTickMut math fee z limit lnet st td).map Prod.fst =
      processTick math fee z limit st td := by
  simp only [processTickMut, processTick]
  cases math.get_sqrt_ratio_at_tick (clampTick td.tick) with
  | error e => rfl
  | ok spn =>
    dsimp only
    cases math.compute_swap_step st.sqrt_price_x_96 (swapTarget z spn limit)
        st.liquidity st.amount_specified_remaining fee with
    | error e => rfl
    | ok r =>
      obtain ⟨p', ain, aout, fa⟩ := r
      dsimp only
      cases i256checkedSub st.amount_calculated (i256fromRaw aout) with
      | error e => rfl
      | ok ac =>
        dsimp only
        by_cases hx : p' = spn
        · simp only [hx, if_pos rfl]
          cases hi : td.initialized with
          | false => simp [Except.map]
          | true =>
            simp only [if_pos rfl]
            cases hn : (if z then i128checkedNeg td.liquidity_net
                else .ok td.liquidity_net : Except CFMMError Int) with
            | error e => simp [Except.map]
            | ok net =>
              dsimp only
              by_cases hneg : net < 0
              · simp only [if_pos hneg]
                cases i128checkedNeg net with
                | error e => simp [Except.map]
                | ok mag =>
                  dsimp only
                  cases u128checkedSub st.liquidity mag.toNat with
                  | error e => simp [Except.map]
                  | ok l => simp [Except.map]
              · simp only [if_neg hneg]
                cases u128checkedAdd st.liquidity net.toNat with
                | error e => simp [Except.map]
                | ok l => simp [Except.map]
        · simp only [if_neg hx]
          by_cases hy : p' = st.sqrt_price_x_96
          · simp [hy, Except.map]
          · cases math.get_tick_at_sqrt_ratio p' with
            | error e => simp [hy, Except.map]
            | ok t => simp [hy, Except.map]

theorem swapLoopMut_map_fst (math : UniswapV3Math) (fee : Nat) (z : Bool) (limit n : Nat)
    (fuel : Nat) : ∀ (st : CurrentState) (lnet : Int) (iter master : List TickData),
    (swapLoopMut math fee z limit n fuel st lnet iter master).map (Except.map Prod.fst) =
      swapLoop math fee z limit n fuel st iter master := by
  induction fuel with
  | zero => intro st lnet iter master; rfl
  | succ fuel ih =>
    intro st lnet iter master
    simp only [swapLoopMut, swapLoop]
    by_cases hc : st.amount_specified_remaining ≠ 0 ∧ st.sqrt_price_x_96 ≠ limit
    · simp only [if_pos hc]
      cases iter with
      | cons td rest =>
        dsimp only
        have h := processTickMut_map_fst math fee z limit lnet st td
        cases hm : processTickMut math fee z limit lnet st td with
        | error e =>
          have hp : processTick math fee z limit st td = .error e := by
            rw [← h, hm]; rfl
          rw [hp]; rfl
        | ok p =>
          obtain ⟨st', lnet'⟩ := p
          have hp : processTick math fee z limit st td = .ok st' := by
            rw [← h, hm]; rfl
          rw [hp]
          exact ih st' lnet' rest master
      | nil =>
        dsimp only
        cases hb : master.take n with
        | nil => rfl
        | cons td rest =>
          dsimp only
          have h := processTickMut_map_fst math fee z limit lnet st td
          cases hm : processTickMut math fee z limit lnet st td with
          | error e =>
            have hp : processTick math fee z limit st td = .error e := by
              rw [← h, hm]; rfl
            rw [hp]; rfl
          | ok p =>
            obtain ⟨st', lnet'⟩ := p
            have hp : processTick math fee z limit st td = .ok st' := by
              rw [← h, hm]; rfl
            rw [hp]
            exact ih st' lnet' rest (master.drop n)
    · simp only [if_neg hc]; rfl

theorem swapLoop_ne_none (math : UniswapV3Math) (fee : Nat) (z : Bool) (limit n : Nat)
    (fuel : Nat) : ∀ (st : CurrentState) (iter master : List TickData),
    iter.length + master.length < fuel →
    swapLoop math fee z limit n fuel st iter master ≠ none := by
  induction fuel with
  | zero => intro st iter master h; omega
  | succ fuel ih =>
    intro st iter master h
    simp only [swapLoop]
    by_cases hc : st.amount_specified_remaining ≠ 0 ∧ st.sqrt_price_x_96 ≠ limit
    · simp only [if_pos hc]
      cases iter with
      | cons td rest =>
        dsimp only
        cases processTick math fee z limit st td with
        | error e => simp
        | ok st' =>
          dsimp only
          apply ih
          simp only [List.length_cons] at h
          omega
      | nil =>
        dsimp only
        cases hb : master.take n with
        | nil => simp
        | cons td rest =>
          dsimp only
          cases processTick math fee z limit st td with
          | error e => simp
          | ok st' =>
            dsimp only
            apply ih
            have h1 : (master.take n).length = min n master.length := List.length_take n master
            have h2 : (master.drop n).length = master.length - n := List.length_drop n master
            have h3 : master.length ≠ 0 := by
              intro hz
              rw [List.eq_nil_of_length_eq_zero hz] at hb
              simp at hb
            have h4 : rest.length + 1 = min n master.length := by
              rw [← h1, hb]; rfl
            simp only [List.length_nil] at h
            omega
    · simp only [if_neg hc]; simp

theorem swapLoop_ok_exit (math : UniswapV3Math) (fee : Nat) (z : Bool) (limit n : Nat)
    (fuel : Nat) : ∀ (st st' : CurrentState) (iter master : List TickData),
    swapLoop math fee z limit n fuel st iter master = some (.ok st') →
    st'.amount_specified_remaining = 0 ∨ st'.sqrt_price_x_96 = limit := by
  induction fuel with
  | zero => intro st st' iter master h; simp [swapLoop] at h
  | succ fuel ih =>
    intro st st' iter master h
    simp only [swapLoop] at h
    by_cases hc : st.amount_specified_remaining ≠ 0 ∧ st.sqrt_price_x_96 ≠ limit
    · rw [if_pos hc] at h
      cases iter with
      | cons td rest =>
        dsimp only at h
        cases hq : processTick math fee z limit st td with
        | error e => rw [hq] at h; simp at h
        | ok st1 =>
          rw [hq] at h
          dsimp only at h
          exact ih st1 st' rest master h
      | nil =>
        dsimp only at h
        cases hb : master.take n with
        | nil => rw [hb] at h; simp at h
        | cons td rest =>
          rw [hb] at h
          dsimp only at h
          cases hq : processTick math fee z limit st td with
          | error e => rw [hq] at h; simp at h
          | ok st1 =>
            rw [hq] at h
            dsimp only at h
            exact ih st1 st' rest (master.drop n) h
    · rw [if_neg hc] at h
      simp only [Option.some.injEq] at h
      have h2 : st = st' := by
        injection h with h3
      rw [← h2]
      by_cases h0 : st.amount_specified_remaining = 0
      · exact Or.inl h0
      · right
        by_cases h1 : st.sqrt_price_x_96 = limit
        · exact h1
        · exact absurd ⟨h0, h1⟩ hc

theorem simulate_map_fst (pool : UniswapV3Pool) (token amount n : Nat)
    (math : UniswapV3Math) (provider : List TickData) :
    (simulate_swap_mut_with_cache pool token amount n math provider).map Prod.fst =
      simulate_swap_with_cache pool token amount n math provider := by
  simp only [simulate_swap_mut_with_cache, simulate_swap_with_cache]
  by_cases h0 : amount = 0
  · simp [h0, Except.map]
  · simp only [if_neg h0]
    have h := swapLoopMut_map_fst math pool.fee (token == pool.token_a)
      (sqrtPriceLimit (token == pool.token_a)) n (provider.length + 1)
      (initialState pool amount) pool.liquidity_net (provider.take n) (provider.drop n)
    cases hm : swapLoopMut math pool.fee (token == pool.token_a)
        (sqrtPriceLimit (token == pool.token_a)) n (provider.length + 1)
        (initialState pool amount) pool.liquidity_net (provider.take n) (provider.drop n) with
    | none =>
      have hl : swapLoop math pool.fee (token == pool.token_a)
          (sqrtPriceLimit (token == pool.token_a)) n (provider.length + 1)
          (initialState pool amount) (provider.take n) (provider.drop n) = none := by
        rw [← h, hm]; rfl
      rw [hl]; rfl
    | some r =>
      cases r with
      | error e =>
        have hl : swapLoop math pool.fee (token == pool.token_a)
            (sqrtPriceLimit (token == pool.token_a)) n (provider.length + 1)
            (initialState pool amount) (provider.take n) (provider.drop n) =
            some (.error e) := by
          rw [← h, hm]; rfl
        rw [hl]; rfl
      | ok p =>
        obtain ⟨st, lnet⟩ := p
        have hl : swapLoop math pool.fee (token == pool.token_a)
            (sqrtPriceLimit (token == pool.token_a)) n (provider.length + 1)
            (initialState pool amount) (provider.take n) (provider.drop n) =
            some (.ok st) := by
          rw [← h, hm]; rfl
        rw [hl]
        dsimp only
        cases i256checkedNeg st.amount_calculated with
        | error e => rfl
        | ok v => rfl

theorem tmod_neg_left (a b : Int) : (-a).tmod b = -(a.tmod b) := by
  rw [Int.tmod_def, Int.tmod_def, Int.neg_tdiv]; ring

/-- C4: with input amount exactly zero, both the read-only and the mutating
entry points (default-window wrappers included) return output amount zero, the
pool state is returned unchanged by the mutating variant, and the result is
the same for every provider stream — no tick-data fetch can influence it,
because the early return precedes the first fetch. -/
theorem zero_input_identity (pool : UniswapV3Pool) (token n : Nat)
    (math : UniswapV3Math) (provider : List TickData) :
    simulate_swap_with_cache pool token 0 n math provider = .ok 0 ∧
    simulate_swap_mut_with_cache pool token 0 n math provider = .ok (0, pool) ∧
    simulate_swap pool token 0 math provider = .ok 0 ∧
    simulate_swap_mut pool token 0 math provider = .ok (0, pool) :=
  ⟨rfl, rfl, rfl, rfl⟩

/-- C7: for identical initial pool state, input token, input amount, window
size and provider tick-data stream, the mutating and the read-only swap loops
compute the same quote: the read-only result is exactly the first component of
the mutating result, for the `with_cache` entry points and the default-window
wrappers alike. -/
theorem ro_mut_quote_equivalence (pool : UniswapV3Pool) (token amount n : Nat)
    (math : UniswapV3Math) (provider : List TickData) :
    (simulate_swap_mut_with_cache pool token amount n math provider).map Prod.fst =
      simulate_swap_with_cache pool token amount n math provider ∧
    (simulate_swap_mut pool token amount math provider).map Prod.fst =
      simulate_swap pool token amount math provider :=
  ⟨simulate_map_fst pool token amount n math provider,
   simulate_map_fst pool token amount 150 math provider⟩

/-- C8 (code bug evidence): `decode_swap_log` reads the SECOND decoded field
for both returned amounts.  On a decoded log whose amount0 word is 5 and
amount1 word is 7 it returns (7, 7, ...), not (5, 7, ...) as the documented
field layout (amount0 = field 0, amount1 = field 1) requires. -/
theorem decode_swap_log_duplicates_field_one :
    decode_swap_log [5, 7, 777, 888, 9] = some (7, 7, 777, 888, 9) := by decide

/-- C9: for positive tick spacing, `calculate_compressed` is floor division:
`compressed * S ≤ T < compressed * S + S`, the truncated quotient being
decremented exactly when the tick is negative and not a multiple of the
spacing. -/
theorem calculate_compressed_floor (pool : UniswapV3Pool) (tick : Int)
    (hs : 0 < pool.tick_spacing) :
    calculate_compressed pool tick * pool.tick_spacing ≤ tick ∧
    tick < calculate_compressed pool tick * pool.tick_spacing + pool.tick_spacing := by
  unfold calculate_compressed
  have hd := Int.tmod_add_tdiv tick pool.tick_spacing
  by_cases h : tick < 0 ∧ tick.tmod pool.tick_spacing ≠ 0
  · rw [if_pos h]
    have hub := Int.tmod_lt_of_pos (-tick) hs
    have hnn := Int.tmod_nonneg pool.tick_spacing (by omega : (0:Int) ≤ -tick)
    rw [tmod_neg_left] at hub hnn
    have hr : tick.tmod pool.tick_spacing < 0 := lt_of_le_of_ne (by linarith) h.2
    constructor <;> nlinarith
  · rw [if_neg h]
    have hub := Int.tmod_lt_of_pos tick hs
    rcases Classical.em (tick < 0) with hneg | hpos
    · have h2 : tick.tmod pool.tick_spacing = 0 := by tauto
      constructor <;> nlinarith
    · have hnn := Int.tmod_nonneg pool.tick_spacing (by omega : (0:Int) ≤ tick)
      constructor <;> nlinarith

def poolA : UniswapV3Pool :=
  { address := 9, token_a := 1, token_a_decimals := 6, token_b := 2, token_b_decimals := 18,
    liquidity := 100, sqrt_price := 200, fee := 3, tick := 60, tick_spacing := 10,
    liquidity_net := 0 }

/-- C9 witness: at spacing 10 and tick -5 the floor-division bounds hold and
the compressed tick is -1, not 0. -/
theorem calculate_compressed_floor_witness :
    ((0:Int) < poolA.tick_spacing ∧
      calculate_compressed poolA (-5) * poolA.tick_spacing ≤ -5 ∧
      (-5:Int) < calculate_compressed poolA (-5) * poolA.tick_spacing + poolA.tick_spacing) ∧
    calculate_compressed poolA (-5) = -1 :=
  ⟨⟨by decide, calculate_compressed_floor poolA (-5) (by decide)⟩, by decide⟩

theorem i32wrap_eq_self (x : Int) (h1 : -(2 ^ 31) ≤ x) (h2 : x < 2 ^ 31) : i32wrap x = x := by
  unfold i32wrap; omega

theorem clampTick_lb (t : Int) : MIN_TICK ≤ clampTick t := le_max_left _ _

theorem clampTick_ub (t : Int) : clampTick t ≤ MAX_TICK :=
  max_le (by decide) (min_le_right _ _)

theorem processTickMut_crossing (math : UniswapV3Math) (fee : Nat) (z : Bool)
    (limit : Nat) (lnet lnet' : Int) (st st2' : CurrentState) (td : TickData) (spn : Nat)
    (hs : math.get_sqrt_ratio_at_tick (clampTick td.tick) = .ok spn)
    (h2 : processTickMut math fee z limit lnet st td = .ok (st2', lnet'))
    (hp : st2'.sqrt_price_x_96 = spn)
    (hi : td.initialized = true) :
    ((st2'.liquidity : Int) =
      (st.liquidity : Int) + (if z then -td.liquidity_net else td.liquidity_net)) ∧
    st2'.tick = (if z then clampTick td.tick - 1 else clampTick td.tick) ∧
    lnet' = (if z then -td.liquidity_net else td.liquidity_net) := by
  have hw : i32wrap (clampTick td.tick - 1) = clampTick td.tick - 1 := by
    have hlb : (-887272 : Int) ≤ clampTick td.tick := clampTick_lb td.tick
    have hub : clampTick td.tick ≤ (887272 : Int) := clampTick_ub td.tick
    apply i32wrap_eq_self <;> omega
  simp only [processTickMut] at h2
  rw [hs] at h2
  dsimp only at h2
  cases hc : math.compute_swap_step st.sqrt_price_x_96 (swapTarget z spn limit)
      st.liquidity st.amount_specified_remaining fee with
  | error e => rw [hc] at h2; simp at h2
  | ok r =>
    obtain ⟨p', ain, aout, fa⟩ := r
    rw [hc] at h2
    dsimp only at h2
    cases hsub : i256checkedSub st.amount_calculated (i256fromRaw aout) with
    | error e => rw [hsub] at h2; simp at h2
    | ok ac =>
      rw [hsub] at h2
      dsimp only at h2
      by_cases hx : p' = spn
      · rw [if_pos hx] at h2
        simp only [hi, eq_self_iff_true, ite_true] at h2
        cases hn : (if z then i128checkedNeg td.liquidity_net
            else .ok td.liquidity_net : Except CFMMError Int) with
        | error e => rw [hn] at h2; simp at h2
        | ok net =>
          rw [hn] at h2
          try dsimp only at h2
          have hnet : net = (if z then -td.liquidity_net else td.liquidity_net) := by
            cases z with
            | true =>
              rw [if_pos rfl] at hn
              rw [if_pos rfl]
              unfold i128checkedNeg at hn
              split at hn
              · simp at hn
              · injection hn with hv; omega
            | false =>
              rw [if_neg (by decide)] at hn
              rw [if_neg (by decide)]
              injection hn with hv; omega
          by_cases hneg : net < 0
          · rw [if_pos hneg] at h2
            cases hm : i128checkedNeg net with
            | error e => rw [hm] at h2; simp at h2
            | ok mag =>
              rw [hm] at h2
              try dsimp only at h2
              have hmag : mag = -net := by
                unfold i128checkedNeg at hm
                split at hm
                · simp at hm
                · injection hm with hv; omega
              cases hu : u128checkedSub st.liquidity mag.toNat with
              | error e => rw [hu] at h2; simp at h2
              | ok l =>
                rw [hu] at h2
                try dsimp only at h2
                unfold u128checkedSub at hu
                split at hu
                next hle =>
                  have hl : l = st.liquidity - mag.toNat := by injection hu with hv; omega
                  simp only [Except.ok.injEq, Prod.mk.injEq] at h2
                  obtain ⟨hst, hln⟩ := h2
                  subst hst
                  refine ⟨?_, ?_, ?_⟩
                  · dsimp only; omega
                  · dsimp only
                    cases z with
                    | true => rw [if_pos rfl, if_pos rfl, hw]
                    | false => rw [if_neg (by decide), if_neg (by decide)]
                  · omega
                next => simp at hu
          · rw [if_neg hneg] at h2
            cases hu : u128checkedAdd st.liquidity net.toNat with
            | error e => rw [hu] at h2; simp at h2
            | ok l =>
              rw [hu] at h2
              try dsimp only at h2
              unfold u128checkedAdd at hu
              split at hu
              next hlt =>
                have hl : l = st.liquidity + net.toNat := by injection hu with hv; omega
                simp only [Except.ok.injEq, Prod.mk.injEq] at h2
                obtain ⟨hst, hln⟩ := h2
                subst hst
                refine ⟨?_, ?_, ?_⟩
                · dsimp only; omega
                · dsimp only
                  cases z with
                  | true => rw [if_pos rfl, if_pos rfl, hw]
                  | false => rw [if_neg (by decide), if_neg (by decide)]
                · omega
              next => simp at hu
      · rw [if_neg hx] at h2
        by_cases hy : p' = st.sqrt_price_x_96
        · rw [if_neg (not_not_intro hy)] at h2
          simp only [Except.ok.injEq, Prod.mk.injEq] at h2
          obtain ⟨hst, hln⟩ := h2
          subst hst
          exact absurd hp hx
        · rw [if_pos hy] at h2
          cases hg : math.get_tick_at_sqrt_ratio p' with
          | error e => rw [hg] at h2; simp at h2
          | ok t =>
            rw [hg] at h2
            simp only [Except.ok.injEq, Prod.mk.injEq] at h2
            obtain ⟨hst, hln⟩ := h2
            subst hst
            exact absurd hp hx

/-- C1: in every swap-loop step (of both the read-only and the mutating loop)
whose new working sqrt price equals the step's `sqrt_price_next_x96` and whose
next tick is initialized, working liquidity is adjusted by the tick's
`liquidity_net` with the sign negated exactly when the direction is
`zero_for_one`, and the working tick becomes `tick_next - 1` when
`zero_for_one` and `tick_next` otherwise; the mutating loop additionally
records the direction-adjusted net and computes the same state. -/
theorem tick_crossing_liquidity_sign (math : UniswapV3Math) (fee : Nat) (z : Bool)
    (limit : Nat) (lnet lnet' : Int) (st st' st2' : CurrentState) (td : TickData) (spn : Nat)
    (hs : math.get_sqrt_ratio_at_tick (clampTick td.tick) = .ok spn)
    (h1 : processTick math fee z limit st td = .ok st')
    (h2 : processTickMut math fee z limit lnet st td = .ok (st2', lnet'))
    (hp : st'.sqrt_price_x_96 = spn)
    (hi : td.initialized = true) :
    ((st'.liquidity : Int) =
      (st.liquidity : Int) + (if z then -td.liquidity_net else td.liquidity_net)) ∧
    (st'.tick = if z then clampTick td.tick - 1 else clampTick td.tick) ∧
    st2' = st' ∧
    lnet' = (if z then -td.liquidity_net else td.liquidity_net) := by
  have hmap := processTickMut_map_fst math fee z limit lnet st td
  rw [h2, h1] at hmap
  have heq : st2' = st' := by
    have h3 : (Except.ok st2' : Except CFMMError CurrentState) = .ok st' := by
      rw [← hmap]; rfl
    injection h3
  subst heq
  obtain ⟨ha, hb, hc2⟩ :=
    processTickMut_crossing math fee z limit lnet lnet' st st2' td spn hs h2 hp hi
  exact ⟨ha, hb, rfl, hc2⟩

theorem processTickMut_underflow (math : UniswapV3Math) (fee : Nat) (z : Bool)
    (limit : Nat) (lnet : Int) (st : CurrentState) (td : TickData)
    (spn ain aout fa : Nat)
    (hs : math.get_sqrt_ratio_at_tick (clampTick td.tick) = .ok spn)
    (hc : math.compute_swap_step st.sqrt_price_x_96 (swapTarget z spn limit)
        st.liquidity st.amount_specified_remaining fee = .ok (spn, ain, aout, fa))
    (hi : td.initialized = true)
    (hlo : -(2 ^ 127) ≤ td.liquidity_net) (hhi : td.liquidity_net < 2 ^ 127)
    (hneg : (if z then -td.liquidity_net else td.liquidity_net) < 0)
    (hmag : (st.liquidity : Int) < -(if z then -td.liquidity_net else td.liquidity_net)) :
    processTickMut math fee z limit lnet st td = .error .arithmeticPanic := by
  simp only [processTickMut] at *
  rw [hs]
  dsimp only
  rw [hc]
  dsimp only
  cases hsub : i256checkedSub st.amount_calculated (i256fromRaw aout) with
  | error e =>
    unfold i256checkedSub at hsub
    split at hsub
    · simp at hsub
    · injection hsub with hv; rw [hv]
  | ok ac =>
    dsimp only
    rw [if_pos rfl]
    simp only [hi, eq_self_iff_true, ite_true]
    cases z with
    | true =>
      simp only [reduceIte] at hneg hmag ⊢
      have hn1 : i128checkedNeg td.liquidity_net = .ok (-td.liquidity_net) := by
        unfold i128checkedNeg
        rw [if_neg (by omega)]
      rw [hn1]
      dsimp only
      rw [if_pos hneg]
      have hn2 : i128checkedNeg (-td.liquidity_net) = .ok td.liquidity_net := by
        unfold i128checkedNeg
        rw [if_neg (by omega)]
        rw [neg_neg]
      rw [hn2]
      dsimp only
      have hn3 : u128checkedSub st.liquidity td.liquidity_net.toNat =
          .error .arithmeticPanic := by
        unfold u128checkedSub
        rw [if_neg (by omega)]
      rw [hn3]
    | false =>
      rw [if_neg (by decide : ¬(false = true))] at hneg hmag
      rw [if_neg (by decide : ¬(false = true))]
      dsimp only
      rw [if_pos hneg]
      by_cases hmin : td.liquidity_net = -(2 ^ 127)
      · have hn2 : i128checkedNeg td.liquidity_net = .error .arithmeticPanic := by
          unfold i128checkedNeg
          rw [if_pos hmin]
        rw [hn2]
      · have hn2 : i128checkedNeg td.liquidity_net = .ok (-td.liquidity_net) := by
          unfold i128checkedNeg
          rw [if_neg hmin]
        rw [hn2]
        dsimp only
        have hn3 : u128checkedSub st.liquidity (-td.liquidity_net).toNat =
            .error .arithmeticPanic := by
          unfold u128checkedSub
          rw [if_neg (by omega)]
        rw [hn3]

/-- C2: when a swap-loop step lands exactly on an initialized tick boundary
whose direction-adjusted liquidity-net is negative with magnitude exceeding
the current working liquidity, both loops fail loudly with an arithmetic-panic
error instead of wrapping the u128 subtraction and continuing. -/
theorem liquidity_underflow_fails_loudly (math : UniswapV3Math) (fee : Nat) (z : Bool)
    (limit : Nat) (lnet : Int) (st : CurrentState) (td : TickData)
    (spn ain aout fa : Nat)
    (hs : math.get_sqrt_ratio_at_tick (clampTick td.tick) = .ok spn)
    (hc : math.compute_swap_step st.sqrt_price_x_96 (swapTarget z spn limit)
        st.liquidity st.amount_specified_remaining fee = .ok (spn, ain, aout, fa))
    (hi : td.initialized = true)
    (hlo : -(2 ^ 127) ≤ td.liquidity_net) (hhi : td.liquidity_net < 2 ^ 127)
    (hneg : (if z then -td.liquidity_net else td.liquidity_net) < 0)
    (hmag : (st.liquidity : Int) < -(if z then -td.liquidity_net else td.liquidity_net)) :
    processTick math fee z limit st td = .error .arithmeticPanic ∧
    processTickMut math fee z limit lnet st td = .error .arithmeticPanic := by
  have hmut := processTickMut_underflow math fee z limit lnet st td spn ain aout fa
    hs hc hi hlo hhi hneg hmag
  refine ⟨?_, hmut⟩
  rw [← processTickMut_map_fst math fee z limit lnet st td, hmut]
  rfl

theorem i256fromRaw_ne_zero (a : Nat) (h0 : a ≠ 0) (hw : a < 2 ^ 256) :
    i256fromRaw a ≠ 0 := by
  unfold i256fromRaw
  split <;> omega

/-- C3: the swap loop of `simulate_swap_with_cache` terminates: the fuel the
entry point passes (one more than the length of the provider's tick stream,
i.e. the number of initialized ticks between the starting price and the bound,
plus one) is always sufficient, and a successful exit happens exactly when the
remaining amount is zero or the working price equals the direction's global
limit — including when steps consume zero amount and move the price by zero,
since every iteration consumes one element of the finite tick stream. -/
theorem swap_loop_terminates (math : UniswapV3Math) (fee : Nat) (z : Bool)
    (limit n fuel : Nat) (st st' : CurrentState) (iter master : List TickData)
    (pool : UniswapV3Pool) (token amount : Nat) (provider : List TickData)
    (h : swapLoop math fee z limit n fuel st iter master = some (.ok st')) :
    swapLoop math fee z limit n (iter.length + master.length + 1) st iter master ≠ none ∧
    (st'.amount_specified_remaining = 0 ∨ st'.sqrt_price_x_96 = limit) ∧
    swapLoop math pool.fee (token == pool.token_a) (sqrtPriceLimit (token == pool.token_a))
      n (provider.length + 1) (initialState pool amount)
      (provider.take n) (provider.drop n) ≠ none := by
  refine ⟨swapLoop_ne_none math fee z limit n _ st iter master (by omega),
    swapLoop_ok_exit math fee z limit n fuel st st' iter master h, ?_⟩
  apply swapLoop_ne_none
  have h1 : (provider.take n).length = min n provider.length := List.length_take n provider
  have h2 : (provider.drop n).length = provider.length - n := List.length_drop n provider
  omega

/-- C5: when the tick-data iterator is exhausted and the refill batch is empty,
the loop fails with `NoInitializedTicks`; in particular, a provider with no
initialized ticks in the trade direction (empty stream, so the first fetch is
empty) makes both entry points fail with `NoInitializedTicks`, with no partial
output amount. -/
theorem empty_batch_no_initialized_ticks (math : UniswapV3Math) (fee : Nat) (z : Bool)
    (limit n fuel : Nat) (st : CurrentState) (master : List TickData)
    (pool : UniswapV3Pool) (token amount : Nat)
    (hr : st.amount_specified_remaining ≠ 0) (hpz : st.sqrt_price_x_96 ≠ limit)
    (htake : master.take n = [])
    (ha : amount ≠ 0) (haw : amount < 2 ^ 256)
    (hp : pool.sqrt_price ≠ sqrtPriceLimit (token == pool.token_a)) :
    swapLoop math fee z limit n (fuel + 1) st [] master =
      some (.error .noInitializedTicks) ∧
    simulate_swap_with_cache pool token amount n math [] = .error .noInitializedTicks ∧
    simulate_swap_mut_with_cache pool token amount n math [] =
      .error .noInitializedTicks := by
  have hcond : (initialState pool amount).amount_specified_remaining ≠ 0 ∧
      (initialState pool amount).sqrt_price_x_96 ≠
        sqrtPriceLimit (token == pool.token_a) := by
    constructor
    · exact i256fromRaw_ne_zero amount ha haw
    · exact hp
  refine ⟨?_, ?_, ?_⟩
  · simp only [swapLoop, if_pos (And.intro hr hpz)]
    rw [htake]
  · simp only [simulate_swap_with_cache, if_neg ha]
    simp only [List.take_nil, List.drop_nil, List.length_nil]
    simp only [swapLoop, if_pos hcond]
    rw [List.take_nil]
  · simp only [simulate_swap_mut_with_cache, if_neg ha]
    simp only [List.take_nil, List.drop_nil, List.length_nil]
    simp only [swapLoopMut, if_pos hcond]
    rw [List.take_nil]

/-- C6: on success with a nonzero amount, the mutating entry point commits
exactly the loop's final working sqrt price, tick, liquidity and
liquidity-net into the pool and leaves address, tokens, decimals, fee and
tick spacing unchanged; the read-only entry point returns only an amount and
two identical calls yield identical output. -/
theorem mut_commits_exactly_final_state (pool : UniswapV3Pool) (token amount n : Nat)
    (math : UniswapV3Math) (provider : List TickData) (out : Nat) (p' : UniswapV3Pool)
    (st : CurrentState) (lnet : Int)
    (ha : amount ≠ 0)
    (hl : swapLoopMut math pool.fee (token == pool.token_a)
        (sqrtPriceLimit (token == pool.token_a)) n (provider.length + 1)
        (initialState pool amount) pool.liquidity_net (provider.take n)
        (provider.drop n) = some (.ok (st, lnet)))
    (h : simulate_swap_mut_with_cache pool token amount n math provider = .ok (out, p')) :
    p'.address = pool.address ∧ p'.token_a = pool.token_a ∧
    p'.token_a_decimals = pool.token_a_decimals ∧ p'.token_b = pool.token_b ∧
    p'.token_b_decimals = pool.token_b_decimals ∧ p'.fee = pool.fee ∧
    p'.tick_spacing = pool.tick_spacing ∧
    p'.sqrt_price = st.sqrt_price_x_96 ∧ p'.tick = st.tick ∧
    p'.liquidity = st.liquidity ∧ p'.liquidity_net = lnet ∧
    simulate_swap_with_cache pool token amount n math provider =
      simulate_swap_with_cache pool token amount n math provider := by
  simp only [simulate_swap_mut_with_cache, if_neg ha] at h
  rw [hl] at h
  dsimp only at h
  cases hneg : i256checkedNeg st.amount_calculated with
  | error e => rw [hneg] at h; simp at h
  | ok v =>
    rw [hneg] at h
    simp only [Except.ok.injEq, Prod.mk.injEq] at h
    obtain ⟨hout, hp'⟩ := h
    subst hp'
    exact ⟨rfl, rfl, rfl, rfl, rfl, rfl, rfl, rfl, rfl, rfl, rfl, rfl⟩

/-- C10: the entry points never validate the input token against the pool's
token pair: the direction is `zero_for_one` iff the token equals `token_a`,
so any address that is neither pool token is silently simulated exactly like a
token-B input (price increasing) rather than producing an error. -/
theorem token_in_not_validated (pool : UniswapV3Pool) (token amount n : Nat)
    (math : UniswapV3Math) (provider : List TickData)
    (h1 : token ≠ pool.token_a) (h2 : pool.token_b ≠ pool.token_a) :
    simulate_swap_with_cache pool token amount n math provider =
      simulate_swap_with_cache pool pool.token_b amount n math provider ∧
    simulate_swap_mut_with_cache pool token amount n math provider =
      simulate_swap_mut_with_cache pool pool.token_b amount n math provider := by
  have hb1 : (token == pool.token_a) = false := by
    simp only [beq_eq_false_iff_ne, ne_eq]
    exact h1
  have hb2 : (pool.token_b == pool.token_a) = false := by
    simp only [beq_eq_false_iff_ne, ne_eq]
    exact h2
  constructor
  · simp only [simulate_swap_with_cache, hb1, hb2]
  · simp only [simulate_swap_mut_with_cache, hb1, hb2]

def mathA : UniswapV3Math :=
  { get_sqrt_ratio_at_tick := fun _ => .ok 100
    get_tick_at_sqrt_ratio := fun _ => .ok 0
    compute_swap_step := fun _ _ _ _ _ => .ok (100, 1, 1, 0) }

def mathB : UniswapV3Math :=
  { get_sqrt_ratio_at_tick := fun _ => .ok 40
    get_tick_at_sqrt_ratio := fun _ => .ok 0
    compute_swap_step := fun _ _ _ _ _ => .ok (40, 4, 2, 0) }

def stA : CurrentState :=
  { amount_specified_remaining := 10, amount_calculated := 0, sqrt_price_x_96 := 200,
    tick := 60, liquidity := 100 }

def stA' : CurrentState :=
  { amount_specified_remaining := 9, amount_calculated := -1, sqrt_price_x_96 := 100,
    tick := 49, liquidity := 105 }

def tdA : TickData := { tick := 50, initialized := true, liquidity_net := -5 }

def stB : CurrentState :=
  { amount_specified_remaining := 10, amount_calculated := 0, sqrt_price_x_96 := 200,
    tick := 60, liquidity := 30 }

def tdB : TickData := { tick := 10, initialized := true, liquidity_net := -50 }

def stZ : CurrentState :=
  { amount_specified_remaining := 0, amount_calculated := 0, sqrt_price_x_96 := 5,
    tick := 0, liquidity := 0 }

def stC : CurrentState :=
  { amount_specified_remaining := 5, amount_calculated := 0, sqrt_price_x_96 := 6,
    tick := 0, liquidity := 0 }

def tdC : TickData := { tick := -10, initialized := true, liquidity_net := -20 }

def stD : CurrentState :=
  { amount_specified_remaining := 0, amount_calculated := -2, sqrt_price_x_96 := 40,
    tick := -11, liquidity := 120 }

def poolA' : UniswapV3Pool :=
  { poolA with liquidity := 120, sqrt_price := 40, tick := -11, liquidity_net := 20 }

/-- C1 witness: a concrete crossing step where all hypotheses hold. -/
theorem tick_crossing_liquidity_sign_witness :
    ((stA'.liquidity : Int) =
      (stA.liquidity : Int) + (if true then -tdA.liquidity_net else tdA.liquidity_net)) ∧
    (stA'.tick = if true then clampTick tdA.tick - 1 else clampTick tdA.tick) ∧
    stA' = stA' ∧
    ((5 : Int) = if true then -tdA.liquidity_net else tdA.liquidity_net) :=
  tick_crossing_liquidity_sign mathA 3 true 1 0 5 stA stA' stA' tdA 100
    (by decide) (by decide) (by decide) (by decide) (by decide)

/-- C2 witness: a concrete underflowing crossing that errors in both loops. -/
theorem liquidity_underflow_fails_loudly_witness :
    processTick mathA 3 false 999 stB tdB = .error .arithmeticPanic ∧
    processTickMut mathA 3 false 999 0 stB tdB = .error .arithmeticPanic :=
  liquidity_underflow_fails_loudly mathA 3 false 999 0 stB tdB 100 1 1 0
    (by decide) (by decide) (by decide) (by decide) (by decide) (by decide) (by decide)

/-- C3 witness: a concrete run of the loop with its hypotheses discharged. -/
theorem swap_loop_terminates_witness :
    swapLoop mathA 3 true 7 2 1 stZ [] [] ≠ none ∧
    (stZ.amount_specified_remaining = 0 ∨ stZ.sqrt_price_x_96 = 7) ∧
    swapLoop mathA poolA.fee (5 == poolA.token_a) (sqrtPriceLimit (5 == poolA.token_a))
      2 1 (initialState poolA 4) [] [] ≠ none :=
  swap_loop_terminates mathA 3 true 7 2 1 stZ stZ [] [] poolA 5 4 [] (by decide)

/-- C5 witness: an empty provider stream makes the loop and both entry points
fail with `NoInitializedTicks`. -/
theorem empty_batch_no_initialized_ticks_witness :
    swapLoop mathA 3 false 7 3 1 stC [] [] = some (.error .noInitializedTicks) ∧
    simulate_swap_with_cache poolA 1 4 3 mathA [] = .error .noInitializedTicks ∧
    simulate_swap_mut_with_cache poolA 1 4 3 mathA [] = .error .noInitializedTicks :=
  empty_batch_no_initialized_ticks mathA 3 false 7 3 0 stC [] poolA 1 4
    (by decide) (by decide) (by decide) (by decide) (by decide) (by decide)

/-- C6 witness: a concrete successful mutating simulation commits exactly the
final working state. -/
theorem mut_commits_exactly_final_state_witness :
    poolA'.address = poolA.address ∧ poolA'.token_a = poolA.token_a ∧
    poolA'.token_a_decimals = poolA.token_a_decimals ∧ poolA'.token_b = poolA.token_b ∧
    poolA'.token_b_decimals = poolA.token_b_decimals ∧ poolA'.fee = poolA.fee ∧
    poolA'.tick_spacing = poolA.tick_spacing ∧
    poolA'.sqrt_price = stD.sqrt_price_x_96 ∧ poolA'.tick = stD.tick ∧
    poolA'.liquidity = stD.liquidity ∧ poolA'.liquidity_net = 20 ∧
    simulate_swap_with_cache poolA 1 4 5 mathB [tdC] =
      simulate_swap_with_cache poolA 1 4 5 mathB [tdC] :=
  mut_commits_exactly_final_state poolA 1 4 5 mathB [tdC] 2 poolA' stD 20
    (by decide) (by decide) (by decide)

/-- C10 witness: an address that is neither pool token is simulated exactly
like a token-B input. -/
theorem token_in_not_validated_witness :
    simulate_swap_with_cache poolA 7 4 3 mathA [] =
      simulate_swap_with_cache poolA poolA.token_b 4 3 mathA [] ∧
    simulate_swap_mut_with_cache poolA 7 4 3 mathA [] =
      simulate_swap_mut_with_cache poolA poolA.token_b 4 3 mathA [] :=
  token_in_not_validated poolA 7 4 3 mathA [] (by decide) (by decide)
